import Mathlib

/-!
Verification development for the `copilot-review-to-prompt-extension`
content script (`content.js`).

The script is modelled by a shallow embedding: DOM queries are replaced by
record fields carrying the raw text the queries would resolve to, and the
string-processing logic of the script (trimming, the hand-rolled FNV-1a
hash, the literal regular expressions, the dedupe/summarize helpers, the
extraction orchestrator, the output builders and the localStorage wrappers)
is translated function by function.  JavaScript strings are modelled by
Lean `String` (one `Char` per UTF-16 code unit for the ASCII/BMP inputs at
hand), JavaScript numbers used as line numbers by `Int`, and fallible
platform primitives (`localStorage`, `JSON.parse`) by `Except`-valued
parameters.  All definitions are executable so concrete runs can be checked
by `decide`/`rfl`.
-/

namespace CRTP

/-! ## JavaScript string primitives -/

/-- Whitespace class of JavaScript (`\s`, `String.prototype.trim`),
restricted to the code points that occur in the data handled here. -/
def isJsWs (c : Char) : Bool :=
  c = ' ' || c = '\t' || c = '\n' || c = '\r' ||
  c = '\x0b' || c = '\x0c' || c = ' '

/-- ASCII lower-casing of one character (`String.prototype.toLowerCase`
on the ASCII range). -/
def lowerChar (c : Char) : Char :=
  if 'A' ≤ c && c ≤ 'Z' then Char.ofNat (c.toNat + 32) else c

/-- ASCII lower-casing of a string. -/
def jsLower (s : String) : String := String.mk (s.data.map lowerChar)

/-- Drop a predicate-satisfying run from both ends of a character list. -/
def dropEnds (p : Char → Bool) (l : List Char) : List Char :=
  ((l.dropWhile p).reverse.dropWhile p).reverse

/-- Model of `String.prototype.trim` (also used for the script's
`safeText` helper, which is `(el?.textContent || "").trim()`). -/
def jsTrim (s : String) : String := String.mk (dropEnds isJsWs s.data)

/-- Model of `text.replace(/\s+/g, " ")`: every maximal whitespace run
becomes a single space. -/
def collapseWsChars : List Char → List Char
  | [] => []
  | c :: cs =>
    let rest := collapseWsChars cs
    if isJsWs c then
      match rest with
      | ' ' :: _ => rest
      | _ => ' ' :: rest
    else c :: rest

/-- Collapse whitespace runs of a string to single spaces. -/
def collapseWs (s : String) : String := String.mk (collapseWsChars s.data)

/-- Decimal digit test (`\d` of the script's regular expressions). -/
def isDigitCh (c : Char) : Bool := '0' ≤ c && c ≤ '9'

/-- Value of a non-empty digit run. -/
def digitsVal (l : List Char) : Nat :=
  l.foldl (fun a c => a * 10 + (c.toNat - 48)) 0

/-- Word character test (`\w` / `\b` of JavaScript regular expressions). -/
def isWordCh (c : Char) : Bool :=
  isDigitCh c || ('a' ≤ c && c ≤ 'z') || ('A' ≤ c && c ≤ 'Z') || c = '_'

/-- Model of `parseInt(str, 10)`: skip leading whitespace, accept an
optional sign, then read a maximal decimal digit run; `none` models `NaN`. -/
def parseDigits (cs : List Char) : Option Nat :=
  let ds := cs.takeWhile isDigitCh
  if ds.isEmpty then none else some (digitsVal ds)

/-- JavaScript `parseInt(s, 10)` returning `none` for `NaN`. -/
def jsParseInt (s : String) : Option Int :=
  match s.data.dropWhile isJsWs with
  | '-' :: rest => (parseDigits rest).map (fun n => -(n : Int))
  | '+' :: rest => (parseDigits rest).map (fun n => (n : Int))
  | cs => (parseDigits cs).map (fun n => (n : Int))

/-- Substring test, modelling `String.prototype.includes`. -/
def containsSub (needle hay : String) : Bool :=
  hay.data.tails.any (fun t => needle.data.isPrefixOf t)

/-- Prefix test on strings (JavaScript `String.prototype.startsWith`). -/
def strStartsWith (s pre : String) : Bool := pre.data.isPrefixOf s.data

/-- Split a character list at newline characters, JavaScript
`String.prototype.split("\n")` semantics: no empty-segment suppression. -/
def splitLinesAux (acc : List Char) : List Char → List String
  | [] => [String.mk acc.reverse]
  | c :: cs =>
    if c = '\n' then String.mk acc.reverse :: splitLinesAux [] cs
    else splitLinesAux (c :: acc) cs

/-- Split a string at newlines. -/
def splitLines (s : String) : List String := splitLinesAux [] s.data

/-- JavaScript `Array.prototype.join(sep)`. -/
def joinSep (sep : String) : List String → String
  | [] => ""
  | x :: xs => xs.foldl (fun a b => a ++ sep ++ b) x

/-- Prefix of the first `n` characters, JavaScript `s.slice(0, n)`. -/
def jsTake (s : String) (n : Nat) : String := String.mk (s.data.take n)

/-- Model of `s.indexOf(c, start)`; `none` models `-1`. -/
def jsIndexOfFrom (s : String) (c : Char) (start : Nat) : Option Nat :=
  match (s.data.drop start).findIdx? (fun d => d = c) with
  | some k => some (start + k)
  | none => none

/-- Fueled global replacement of a literal pattern, modelling
`s.replace(/pat/g, repl)` for a non-empty literal `pat`. -/
def replaceAllAux (pat repl : List Char) : Nat → List Char → List Char
  | 0, l => l
  | _, [] => []
  | fuel + 1, c :: cs =>
    if pat.isPrefixOf (c :: cs) then
      repl ++ replaceAllAux pat repl fuel ((c :: cs).drop pat.length)
    else c :: replaceAllAux pat repl fuel cs

/-- Global literal replacement on strings. -/
def jsReplaceAll (s pat repl : String) : String :=
  String.mk (replaceAllAux pat.data repl.data (s.data.length + 1) s.data)

/-- JavaScript truthiness of an optional string (`undefined`, `null` and
`""` are falsy). -/
def optStrTruthy (o : Option String) : Bool :=
  match o with
  | none => false
  | some s => !(s == "")

/-- JavaScript truthiness of an optional number (`0` is falsy). -/
def optIntTruthy (o : Option Int) : Bool :=
  match o with
  | none => false
  | some n => !(n == 0)

/-- Model of the JavaScript expression `opt || alt` for a string-valued
left operand. -/
def jsOrText (o : Option String) (alt : String) : String :=
  match o with
  | some s => if s = "" then alt else s
  | none => alt

/-! ## Identity hasher (`hashString` of content.js)

The script computes a 32-bit FNV-1a variant: `h ^= charCode` followed by
`h += (h << 1) + (h << 4) + (h << 7) + (h << 8) + (h << 24)`, which modulo
2^32 is multiplication by the FNV prime 16777619, then `(h >>> 0)` and a
base-36 rendering. -/

/-- One FNV-1a step modulo 2^32. -/
def fnvStep (h : Nat) (c : Char) : Nat :=
  ((h ^^^ c.toNat) * 16777619) % 4294967296

/-- The 32-bit hash value of a string. -/
def fnvHash (s : String) : Nat := s.data.foldl fnvStep 0x811c9dc5

/-- Digit character for base-36 rendering (`0-9` then `a-z`). -/
def digit36 (d : Nat) : Char :=
  if d < 10 then Char.ofNat (48 + d) else Char.ofNat (87 + d)

/-- Fueled base-36 digit expansion (most significant digit first). -/
def toBase36Aux : Nat → Nat → List Char
  | 0, _ => []
  | fuel + 1, n =>
    if n = 0 then [] else toBase36Aux fuel (n / 36) ++ [digit36 (n % 36)]

/-- JavaScript `n.toString(36)` for an unsigned 32-bit value. -/
def toBase36 (n : Nat) : String :=
  if n = 0 then "0" else String.mk (toBase36Aux 32 n)

/-- The script's `hashString`: FNV-1a modulo 2^32 rendered in base 36. -/
def hashString (s : String) : String := toBase36 (fnvHash s)

/-- Suggestion identifier composition used by `extractAllSuggestions`:
the template literal of content.js line 744. -/
def mkSuggestionId (frameId : String) (idx i : Nat) (text : String) : String :=
  frameId ++ ":" ++ toString idx ++ ":" ++ toString i ++ ":" ++ hashString text

/-! ## The line-range regular expression of `findLineRangeInFrame`

content.js line 434 matches the trimmed text of the specific line `div`
against `/Lines?\s+(\d+)(?:-(\d+))?/i` (the pre-v1.1 pattern).  The
matcher below implements exactly that search: scan left to right, at each
position try `line`/`Line` case-insensitively, greedily take an optional
`s`, then require whitespace, a digit run, and an optional `-`-separated
second digit run. -/

/-- Tail of the line regex after the literal word: `\s+(\d+)(?:-(\d+))?`. -/
def matchLinesTail (cs : List Char) : Option (Nat × Option Nat) :=
  if (cs.takeWhile isJsWs).isEmpty then none
  else
    let rest := cs.dropWhile isJsWs
    let ds := rest.takeWhile isDigitCh
    if ds.isEmpty then none
    else
      match rest.dropWhile isDigitCh with
      | '-' :: r3 =>
        let ds2 := r3.takeWhile isDigitCh
        if ds2.isEmpty then some (digitsVal ds, none)
        else some (digitsVal ds, some (digitsVal ds2))
      | _ => some (digitsVal ds, none)

/-- Attempt of the line regex anchored at the head of the list. -/
def matchLinesAt (cs : List Char) : Option (Nat × Option Nat) :=
  match cs with
  | c1 :: c2 :: c3 :: c4 :: rest =>
    if lowerChar c1 = 'l' && lowerChar c2 = 'i' &&
       lowerChar c3 = 'n' && lowerChar c4 = 'e' then
      match rest with
      | c5 :: rest2 =>
        if lowerChar c5 = 's' then
          match matchLinesTail rest2 with
          | some r => some r
          | none => matchLinesTail rest
        else matchLinesTail rest
      | [] => matchLinesTail []
    else none
  | _ => none

/-- Left-to-right search with the line regex (JavaScript `String.match`). -/
def searchLines : List Char → Option (Nat × Option Nat)
  | [] => none
  | c :: cs =>
    match matchLinesAt (c :: cs) with
    | some r => some r
    | none => searchLines cs

/-! ## The anchor regular expression `/#(?:L|R)(\d+)/` -/

/-- Attempt of the anchor regex at the head of the list. -/
def anchorMatchAt : List Char → Option Nat
  | '#' :: c :: rest =>
    if c = 'L' || c = 'R' then parseDigits rest else none
  | _ => none

/-- Left-to-right search with the anchor regex. -/
def searchAnchor : List Char → Option Nat
  | [] => none
  | c :: cs =>
    match anchorMatchAt (c :: cs) with
    | some r => some r
    | none => searchAnchor cs

/-! ## The pattern-line regular expression of `extractPatternLines`

content.js line 599:
`/^(-|\*|\d+\.)\s+(.+)$|^(suggestion|fix|improve|change|refactor|rename|remove|add|update)[:\-]\s*(.+)$/i`
applied to each trimmed non-empty line; the pushed candidate is the
captured remainder (`m[2]` or `m[4]`). -/

/-- Character class matched by `.` in a JavaScript regex (no line
terminators). -/
def dotCh (c : Char) : Bool := !(c = '\n' || c = '\r')

/-- Tail `\s+(.+)$` of the first alternative. -/
def patternAlt1Tail (rest : List Char) : Option (List Char) :=
  if (rest.takeWhile isJsWs).isEmpty then none
  else
    let rem := rest.dropWhile isJsWs
    if rem.isEmpty then none
    else if rem.all dotCh then some rem else none

/-- First alternative `^(-|\*|\d+\.)\s+(.+)$`, returning capture 2. -/
def patternAlt1 (cs : List Char) : Option (List Char) :=
  match cs with
  | '-' :: rest => patternAlt1Tail rest
  | '*' :: rest => patternAlt1Tail rest
  | _ =>
    let ds := cs.takeWhile isDigitCh
    if ds.isEmpty then none
    else
      match cs.dropWhile isDigitCh with
      | '.' :: rest => patternAlt1Tail rest
      | _ => none

/-- Tail `[:\-]\s*(.+)$` of the second alternative. -/
def patternAlt2Tail (rest : List Char) : Option (List Char) :=
  match rest with
  | c :: r2 =>
    if c = ':' || c = '-' then
      let rem := r2.dropWhile isJsWs
      if rem.isEmpty then none
      else if rem.all dotCh then some rem else none
    else none
  | [] => none

/-- Keyword list of the second alternative, in source order. -/
def patternKeywords : List String :=
  ["suggestion", "fix", "improve", "change", "refactor",
   "rename", "remove", "add", "update"]

/-- Second alternative, returning capture 4; the keywords are tried in
order against the line case-insensitively. -/
def patternAlt2 (cs : List Char) : Option (List Char) :=
  (patternKeywords.map (fun kw =>
      if kw.data.isPrefixOf (cs.map lowerChar) then
        patternAlt2Tail (cs.drop kw.length)
      else none)).foldl (fun acc r => match acc with
        | some v => some v
        | none => r) none

/-- Candidate extracted from one trimmed line (`m[2] || m[4]`), or `none`
when the pattern regex does not match. -/
def patternLineCandidate (line : String) : Option String :=
  match patternAlt1 line.data with
  | some r => some (String.mk r)
  | none =>
    match patternAlt2 line.data with
    | some r => some (String.mk r)
    | none => none

/-! ## The diff-shape test `/^(?:\+|\-|\s|@@|diff)/m` -/

/-- Start-of-line test of the multiline diff regex; an empty non-final
line matches through `\s` consuming the following newline. -/
def lineDiffStart (l : String) (isLast : Bool) : Bool :=
  match l.data with
  | [] => !isLast
  | c :: _ =>
    c = '+' || c = '-' || isJsWs c ||
    strStartsWith l "@@" || strStartsWith l "diff"

/-- Multiline test of the diff regex over a whole string. -/
def diffLike (code : String) : Bool :=
  let lines := splitLines code
  lines.enum.any (fun p => lineDiffStart p.2 (p.1 = lines.length - 1))

/-! ## Word-boundary and `ai\s+review` tests of `isCopilotAuthor` -/

/-- Attempt of `\bcopilot\b` at the head of the list given the previous
character. -/
def copilotWordAt (prev : Option Char) (cs : List Char) : Bool :=
  "copilot".data.isPrefixOf cs &&
  (match prev with | none => true | some p => !isWordCh p) &&
  (match cs.drop 7 with | [] => true | n :: _ => !isWordCh n)

/-- Search for `\bcopilot\b`. -/
def copilotWordAux (prev : Option Char) : List Char → Bool
  | [] => false
  | c :: cs => copilotWordAt prev (c :: cs) || copilotWordAux (some c) cs

/-- Test of `/\bcopilot\b/` on a string. -/
def copilotWordTest (s : String) : Bool := copilotWordAux none s.data

/-- Attempt of `ai\s+review` at the head of the list. -/
def aiReviewAt : List Char → Bool
  | 'a' :: 'i' :: rest =>
    !(rest.takeWhile isJsWs).isEmpty &&
    "review".data.isPrefixOf (rest.dropWhile isJsWs)
  | _ => false

/-- Test of `/ai\s+review/` on a string. -/
def aiReviewTest (s : String) : Bool := s.data.tails.any aiReviewAt

/-! ## Data model

The DOM inputs of the extraction functions are modelled by records whose
fields hold the raw text the corresponding `querySelector` calls resolve
to; `Option` encodes element absence (`querySelector` returning `null`),
and `""` an element with empty text where the script distinguishes the
two. -/

/-- One `details` block inside a comment body: its `summary` text and the
text of its first `pre, code` descendant (`""` when absent). -/
structure DetailsBlock where
  summaryText : String
  preCodeText : String
deriving DecidableEq

/-- One row of a suggested-change table: deletion/addition markers and the
resolved code-cell text (`""` when the row has no usable cell). -/
structure SuggRow where
  hasDeletion : Bool
  hasAddition : Bool
  cellText : String
deriving DecidableEq

/-- The body element of one comment (`.js-comment-body, .comment-body`):
raw text of every `ul li, ol li`, the flattened body text, the `details`
blocks, the suggested-change tables, and every `pre` / `code` text in
document order. -/
structure CommentBody where
  liTexts : List String
  fullText : String
  detailsBlocks : List DetailsBlock
  suggTables : List (List SuggRow)
  preTexts : List String
  codeTexts : List String
deriving DecidableEq

/-- One comment root: body (absent when the container only matched via
`task-lists`), the prose text remaining after `extractReviewTextOnly`
removes code/diff/table sub-elements from a clone, and the author /
badge / anchor evidence read by the classifier. -/
structure CommentRoot where
  hasTaskLists : Bool
  body? : Option CommentBody
  proseTextRaw : Option String
  authorText : String
  authorHref : String
  botBadgeText : String
  anchorHref : Option String
deriving DecidableEq

/-- The nested code table read by `findCodeMentionedInFrame`: per-row
optional `.blob-code-inner` text and the table's own flattened text. -/
structure CodeTable where
  rowCodeCells : List (Option String)
  tableText : String
deriving DecidableEq

/-- One review-thread `turbo-frame` container. -/
structure Frame where
  idAttr : String
  outerHTML : String
  specificFileLinkText : Option String
  dataPathAttr : Option String
  fileLinkText : Option String
  pathyText : Option String
  lineDivText : Option String
  dataLineNumbers : List String
  blobNumTexts : List String
  anchorHrefs : List String
  codeTable : Option CodeTable
  comments : List CommentRoot
deriving DecidableEq

/-- A review page: its address and its review-thread containers. -/
structure Page where
  href : String
  frames : List Frame
deriving DecidableEq

/-- The central `Suggestion` record assembled by the orchestrator. -/
structure Suggestion where
  id : String
  text : String
  summary : String
  sourceUrl : String
  isCopilot : Bool
  filePath : Option String
  lineStart : Option Int
  lineEnd : Option Int
  codeMentioned : Option String
  reviewText : Option String
  suggestedChange : Option String
deriving DecidableEq

/-! ## Context locators -/

/-- Model of `findFilePathInFrame` (content.js lines 396-423): four
priority-ordered fallbacks. -/
def findFilePathInFrame (f : Frame) : Option String :=
  match f.specificFileLinkText with
  | some t => some (jsTrim t)
  | none =>
    let fallback :=
      let candidate := jsTrim (f.fileLinkText.getD "")
      if candidate ≠ "" &&
         (containsSub "/" candidate ||
          (let rev := candidate.data.reverse
           !(rev.takeWhile isWordCh).isEmpty &&
           ((rev.dropWhile isWordCh).head? = some '.' : Bool))) then
        some candidate
      else
        let pathy := jsTrim (f.pathyText.getD "")
        if pathy ≠ "" && containsSub "/" pathy then some pathy else none
    match f.dataPathAttr with
    | some a => if a ≠ "" then some (jsTrim a) else fallback
    | none => fallback

/-- Candidate line numbers collected by `findLineRangeInFrame` (content.js
lines 425-462), in source order: the regex over the specific line div,
`[data-line-number]` attributes, `.blob-num` cell texts, and
`#L`/`#R` anchor fragments. -/
def lineCandidates (f : Frame) : List Int :=
  (match f.lineDivText with
   | none => []
   | some raw =>
     match searchLines (jsTrim raw).data with
     | none => []
     | some (st, en?) => [(st : Int), ((en?.getD st : Nat) : Int)])
  ++ f.dataLineNumbers.filterMap jsParseInt
  ++ f.blobNumTexts.filterMap (fun t => jsParseInt (jsTrim t))
  ++ f.anchorHrefs.filterMap (fun h => (searchAnchor h.data).map (fun n => (n : Int)))

/-- First-occurrence deduplication of the candidate numbers (insertion
into a JavaScript `Set`). -/
def jsSetDedupAux (seen : List Int) : List Int → List Int
  | [] => []
  | x :: xs =>
    if x ∈ seen then jsSetDedupAux seen xs
    else x :: jsSetDedupAux (x :: seen) xs

/-- Deduplicate keeping first occurrences. -/
def jsSetDedup (l : List Int) : List Int := jsSetDedupAux [] l

/-- Model of `findLineRangeInFrame` (content.js lines 425-468): merge all
candidates into a set; on an empty set both fields are `null`, otherwise
sort ascending and take the first and last entries. -/
def findLineRangeInFrame (f : Frame) : Option Int × Option Int :=
  let uniq := jsSetDedup (lineCandidates f)
  if uniq.isEmpty then (none, none)
  else
    let arr := uniq.insertionSort (fun a b => a ≤ b)
    (arr.head?, arr.getLast?)

/-- Model of `findCodeMentionedInFrame` (content.js lines 470-487). -/
def findCodeMentionedInFrame (f : Frame) : Option String :=
  match f.codeTable with
  | none => none
  | some t =>
    let codeLines := t.rowCodeCells.filterMap id
    if codeLines.length > 0 then some (joinSep "\n" codeLines)
    else some (jsTrim t.tableText)

/-! ## Comment-level extraction -/

/-- Model of `extractReviewTextOnly` (content.js lines 489-511): the
cloned body text with code/diff blocks removed, three literal phrases
deleted, trimmed; `null` when empty. -/
def extractReviewTextOnly (c : CommentRoot) : Option String :=
  match c.proseTextRaw with
  | none => none
  | some raw =>
    let text :=
      jsTrim (jsReplaceAll (jsReplaceAll (jsReplaceAll (jsTrim raw)
        "Suggested change" "") "Suggestion applied" "") "Commit suggestion" "")
    if text = "" then none else some text

/-- Model of `extractListItems` (content.js lines 581-588). -/
def extractListItems (body : CommentBody) : List String :=
  body.liTexts.filterMap (fun t =>
    let x := jsTrim t
    if x = "" then none else some x)

/-- Strip the surrounding quote/whitespace runs,
`candidate.replace(/^["'\s]+|["'\s]+$/g, "")`. -/
def isQuoteWs (c : Char) : Bool := c = '"' || c = '\'' || isJsWs c

/-- Model of `extractPatternLines` (content.js lines 590-610). -/
def extractPatternLines (body : CommentBody) : List String :=
  let text := jsTrim body.fullText
  if text = "" then []
  else
    ((splitLines text).map jsTrim |>.filter (fun l => l ≠ "")).filterMap
      (fun line =>
        match patternLineCandidate line with
        | some cand =>
          let cleaned := String.mk (dropEnds isQuoteWs cand.data)
          if cleaned = "" then none else some cleaned
        | none => none)

/-- Model of `extractSuggestedChangeBlocks` (content.js lines 612-676):
details blocks whose summary mentions a suggestion, suggested-change
tables rendered as unified diffs, and diff-shaped `pre` blocks. -/
def extractSuggestedChangeBlocks (body : CommentBody) : List String :=
  body.detailsBlocks.filterMap (fun d =>
    let summaryText := jsLower (jsTrim d.summaryText)
    if containsSub "suggested change" summaryText ||
       containsSub "suggestion" summaryText then
      let code := jsTrim d.preCodeText
      if code ≠ "" then some ("Suggested change:\n" ++ code) else none
    else none)
  ++ body.suggTables.filterMap (fun rows =>
    let lines := rows.filterMap (fun r =>
      let txt := jsTrim r.cellText
      if txt = "" then none
      else if r.hasDeletion then some ("- " ++ txt)
      else if r.hasAddition then some ("+ " ++ txt)
      else some ("  " ++ txt))
    let diff := jsTrim (joinSep "\n" lines)
    if diff ≠ "" then some ("Suggested diff:\n" ++ diff) else none)
  ++ body.preTexts.filterMap (fun p =>
    let code := jsTrim p
    if code ≠ "" && diffLike code then some ("Suggested diff:\n" ++ code)
    else none)

/-- Keyed first-occurrence deduplication with an accumulator of already
seen keys. -/
def dedupeKeyedAux (f : String → String) (seen : List String) :
    List String → List String
  | [] => []
  | s :: rest =>
    if f s ∈ seen then dedupeKeyedAux f seen rest
    else s :: dedupeKeyedAux f (f s :: seen) rest

/-- Model of `dedupe` (content.js lines 678-689): key is the lowercased
string. -/
def dedupe (arr : List String) : List String := dedupeKeyedAux jsLower [] arr

/-- Model of `summarize` (content.js lines 691-699) at the default
`maxLen = 140`. -/
def summarize (text : String) : String :=
  let t := jsTrim (collapseWs text)
  if t.length ≤ 140 then t
  else
    let sentenceEnd : Int :=
      match jsIndexOfFrom t '.' 60 with
      | some k => (k : Int)
      | none => -1
    if 0 < sentenceEnd && sentenceEnd < 140 then
      jsTake t (sentenceEnd.toNat + 1)
    else jsTake t 139 ++ "…"

/-- Model of `extractSuggestionsFromComment` (content.js lines 701-711):
the three structured strategies concatenated and deduplicated; an absent
body yields the empty list.  There is no plain-text fallback in the
shipped code. -/
def extractSuggestionsFromComment (c : CommentRoot) : List String :=
  match c.body? with
  | none => []
  | some body =>
    dedupe (extractListItems body ++ extractPatternLines body ++
      extractSuggestedChangeBlocks body)

/-- Model of `extractPrimarySuggestedChange` (content.js lines 513-535). -/
def extractPrimarySuggestedChange (c : CommentRoot) : Option String :=
  match c.body? with
  | none => none
  | some body =>
    match extractSuggestedChangeBlocks body with
    | b :: _ => some b
    | [] =>
      let preText := jsTrim (body.preTexts.headD "")
      if preText ≠ "" then some preText
      else
        let codeText := jsTrim (body.codeTexts.headD "")
        if codeText ≠ "" then some codeText else none

/-- Model of `isCopilotAuthor` (content.js lines 541-566): ordered
short-circuit OR of author text, author href, badge + author text, and
body-content heuristics. -/
def isCopilotAuthor (c : CommentRoot) : Bool :=
  let authorText := jsLower (jsTrim c.authorText)
  if containsSub "copilot" authorText then true
  else if containsSub "github-copilot" c.authorHref ||
          containsSub "githubcopilot" c.authorHref then true
  else
    let botText := jsLower (jsTrim c.botBadgeText)
    if containsSub "bot" botText && containsSub "copilot" authorText then true
    else
      let bodyText :=
        jsLower (jsTrim (match c.body? with | none => "" | some b => b.fullText))
      copilotWordTest bodyText || aiReviewTest bodyText

/-- Model of `getAnchorUrlForComment` (content.js lines 568-579). -/
def getAnchorUrlForComment (c : CommentRoot) (pageHref : String) : String :=
  match c.anchorHref with
  | some h => if h = "" then pageHref else h
  | none => pageHref

/-! ## Extraction orchestrator -/

/-- Model of `findCommentRootsInTurboFrame` (content.js lines 713-725):
keep candidates exposing a comment body or a `task-lists` element. -/
def findCommentRootsInTurboFrame (f : Frame) : List CommentRoot :=
  f.comments.filter (fun c => c.body?.isSome || c.hasTaskLists)

/-- Frame identity fallback of the orchestrator (content.js line 742). -/
def frameIdOf (f : Frame) : String :=
  if f.idAttr ≠ "" then f.idAttr
  else "frame-" ++ hashString (jsTake f.outerHTML 512)

/-- Assembly of one `Suggestion` record (content.js lines 743-765). -/
def mkSuggestion (pageHref : String) (frame : Frame) (idx : Nat)
    (c : CommentRoot) (i : Nat) (text : String) : Suggestion :=
  let lr := findLineRangeInFrame frame
  let rt := extractReviewTextOnly c
  { id := mkSuggestionId (frameIdOf frame) idx i text
    text := text
    summary := summarize (jsOrText rt text)
    sourceUrl := getAnchorUrlForComment c pageHref
    isCopilot := isCopilotAuthor c
    filePath :=
      match findFilePathInFrame frame with
      | some p => if p = "" then none else some p
      | none => none
    lineStart := lr.1
    lineEnd := lr.2
    codeMentioned := findCodeMentionedInFrame frame
    reviewText := rt
    suggestedChange := extractPrimarySuggestedChange c }

/-- The full candidate list before the global author filter (content.js
lines 727-768). -/
def buildCandidates (page : Page) : List Suggestion :=
  page.frames.flatMap (fun frame =>
    (findCommentRootsInTurboFrame frame).enum.flatMap (fun ic =>
      (extractSuggestionsFromComment ic.2).enum.map (fun it =>
        mkSuggestion page.href frame ic.1 ic.2 it.1 it.2)))

/-- Global author-based filtering policy (content.js lines 770-772). -/
def applyGlobalFilter (all : List Suggestion) : List Suggestion :=
  if all.any (fun s => s.isCopilot) then all.filter (fun s => s.isCopilot)
  else all

/-- Model of `extractAllSuggestions` (content.js lines 727-773). -/
def extractAllSuggestions (page : Page) : List Suggestion :=
  applyGlobalFilter (buildCandidates page)

/-! ## Prompt builder (`buildPrompt`, content.js lines 897-954) -/

/-- The `linesLabel` expression of one prompt item (content.js lines
911-916); both endpoints must be truthy numbers. -/
def linesLabel (s : Suggestion) : Option String :=
  if optIntTruthy s.lineStart && optIntTruthy s.lineEnd then
    some (if s.lineStart = s.lineEnd then "L" ++ toString (s.lineStart.getD 0)
          else "L" ++ toString (s.lineStart.getD 0) ++ "-L" ++
               toString (s.lineEnd.getD 0))
  else none

/-- The `fileLine` expression of one prompt item (content.js lines
918-921). -/
def promptFileLine (s : Suggestion) : Option String :=
  if optStrTruthy s.filePath || (linesLabel s).isSome then
    some ("File: " ++ (if optStrTruthy s.filePath then s.filePath.getD ""
                       else "unknown") ++
          (match linesLabel s with
           | some lab => " (" ++ lab ++ ")"
           | none => ""))
  else none

/-- The `suggestionBlock` expression of one prompt item (content.js lines
929-938): from `suggestedChange` when truthy, else from `text` when it is
non-empty and differs from `summary`; prefixed unless the trimmed string
already starts with `Suggested`. -/
def buildPromptSuggestionBlock (s : Suggestion) : Option String :=
  if optStrTruthy s.suggestedChange then
    let c := s.suggestedChange.getD ""
    some (if strStartsWith (jsTrim c) "Suggested" then c
          else "Suggested change:\n" ++ c)
  else if s.text ≠ "" && !(s.text == s.summary) then
    some (if strStartsWith (jsTrim s.text) "Suggested" then s.text
          else "Suggested change:\n" ++ s.text)
  else none

/-- The per-item block of `buildPrompt` before joining (content.js lines
940-949): the array literal followed by `.filter(Boolean)`, which drops
both `null` entries and the trailing empty string. -/
def promptItemParts (s : Suggestion) (idx : Nat) : List String :=
  (([some ("#" ++ toString (idx + 1) ++ " " ++ s.summary),
     promptFileLine s,
     (if optStrTruthy s.codeMentioned then
        some ("Code mentioned:\n" ++ s.codeMentioned.getD "") else none),
     (if optStrTruthy s.reviewText then
        some ("Review:\n" ++ s.reviewText.getD "") else none),
     buildPromptSuggestionBlock s,
     some ""] : List (Option String)).filterMap id).filter
    (fun x => x ≠ "")

/-- Model of `buildPrompt`: fixed preamble plus the joined item blocks. -/
def buildPrompt (pageHref : String) (items : List Suggestion) : String :=
  let header := joinSep "\n"
    ["Task: Apply the following GitHub Copilot review suggestions to the codebase in this PR.",
     "PR: " ++ pageHref,
     "Instructions:",
     "- For each item, implement the change described.",
     "- If multiple files are impacted, update all relevant locations.",
     "- Preserve existing behavior unless a change is explicitly requested.",
     ""]
  let body := joinSep "\n"
    (items.enum.map (fun p => joinSep "\n" (promptItemParts p.2 p.1)))
  header ++ "\n" ++ body

/-! ## JSON builder (`buildJSON`, content.js lines 991-1008)

JSON documents are modelled at the value level: `JSON.stringify` /
`JSON.parse` of the platform are an exact round trip on this value tree,
so the structural facts below are facts about the parsed output. -/

/-- JSON value tree. -/
inductive JVal where
  | null : JVal
  | str : String → JVal
  | num : Int → JVal
  | arr : List JVal → JVal
  | obj : List (String × JVal) → JVal

/-- Key lookup in a JSON object field list. -/
def jLookup (fields : List (String × JVal)) (k : String) : Option JVal :=
  (fields.find? (fun kv => kv.1 == k)).map (fun kv => kv.2)

/-- Key lookup at the top of a JSON value. -/
def jTop (v : JVal) (k : String) : Option JVal :=
  match v with
  | JVal.obj fs => jLookup fs k
  | _ => none

/-- Serialization of `opt || null` for a string field. -/
def jOptStr (o : Option String) : JVal :=
  match o with
  | some s => if s = "" then JVal.null else JVal.str s
  | none => JVal.null

/-- Serialization of `opt ?? null` for a numeric field. -/
def jOptNum (o : Option Int) : JVal :=
  match o with
  | some n => JVal.num n
  | none => JVal.null

/-- The normalized record of one suggestion (content.js lines 992-1002):
every key is always present; absent optional fields serialize as `null`. -/
def normalizeSuggestion (s : Suggestion) : JVal :=
  JVal.obj
    [("id", JVal.str s.id),
     ("filePath", jOptStr s.filePath),
     ("lineStart", jOptNum s.lineStart),
     ("lineEnd", jOptNum s.lineEnd),
     ("summary", JVal.str s.summary),
     ("codeMentioned", jOptStr s.codeMentioned),
     ("reviewText", jOptStr s.reviewText),
     ("suggestedChange", jOptStr s.suggestedChange),
     ("sourceUrl", JVal.str s.sourceUrl)]

/-- Model of `buildJSON`: the value serialized by
`JSON.stringify({ pr: location.href, suggestions: normalized }, null, 2)`. -/
def buildJSON (pageHref : String) (items : List Suggestion) : JVal :=
  JVal.obj
    [("pr", JVal.str pageHref),
     ("suggestions", JVal.arr (items.map normalizeSuggestion))]

/-! ## Selection state store (`storage`, content.js lines 349-390)

The localStorage primitives and `JSON.parse` are platform calls that can
throw; they are modelled as `Except`-valued parameters, and each store
operation's result type is the `Except` the caller observes, so
`Except.ok` everywhere is exactly "no exception propagates". -/

/-- Opaque JavaScript exception carried by a failing platform call. -/
inductive JsErr where
  | quotaExceeded : JsErr
  | err : String → JsErr
deriving DecidableEq

/-- JavaScript `try { body } catch { handler }`. -/
def jsTryCatch {α : Type} (body : Except JsErr α) (handler : Except JsErr α) :
    Except JsErr α :=
  match body with
  | Except.ok a => Except.ok a
  | Except.error _ => handler

/-- Shared body of the two read operations: `getItem`, falsy check,
`JSON.parse`, `Array.isArray` coercion. -/
def storageReadBody (getItemResult : Except JsErr (Option String))
    (parseJSON : String → Except JsErr JVal) : Except JsErr (List JVal) := do
  let raw? ← getItemResult
  match raw? with
  | none => pure []
  | some raw =>
    if raw = "" then pure []
    else do
      let v ← parseJSON raw
      pure (match v with | JVal.arr xs => xs | _ => [])

/-- Model of `storage.getDeselectedSet` (content.js lines 350-359). -/
def getDeselectedSet (getItemResult : Except JsErr (Option String))
    (parseJSON : String → Except JsErr JVal) : Except JsErr (List JVal) :=
  jsTryCatch (storageReadBody getItemResult parseJSON) (Except.ok [])

/-- Model of `storage.getIgnoredSet` (content.js lines 370-379). -/
def getIgnoredSet (getItemResult : Except JsErr (Option String))
    (parseJSON : String → Except JsErr JVal) : Except JsErr (List JVal) :=
  jsTryCatch (storageReadBody getItemResult parseJSON) (Except.ok [])

/-- Rendering of `JSON.stringify(Array.from(set))` for the saved id
arrays (string escaping is immaterial to the store's control flow). -/
def stringifyIds (ids : List String) : String :=
  "[" ++ joinSep "," (ids.map (fun s => "\"" ++ s ++ "\"")) ++ "]"

/-- Model of `storage.saveDeselectedSet` (content.js lines 360-369). -/
def saveDeselectedSet (setItemResult : String → Except JsErr Unit)
    (ids : List String) : Except JsErr Unit :=
  jsTryCatch (setItemResult (stringifyIds ids)) (Except.ok ())

/-- Model of `storage.saveIgnoredSet` (content.js lines 380-389). -/
def saveIgnoredSet (setItemResult : String → Except JsErr Unit)
    (ids : List String) : Except JsErr Unit :=
  jsTryCatch (setItemResult (stringifyIds ids)) (Except.ok ())

/-! ## Specification-side deduplication

The specification describes `segment` as the concatenation of the three
structured strategies with duplicates removed by lowercased trimmed text,
keeping the first occurrence of each key.  `dedupeFirstOcc` is that
description written directly as a recursion, to be compared with the
accumulator-based `dedupe` of the source. -/

/-- Modelled from the spec: keep each list element whose key has not
occurred before it, by filtering later key-equal elements away. -/
def dedupeFirstOcc (f : String → String) : List String → List String
  | [] => []
  | x :: xs =>
    x :: dedupeFirstOcc f (xs.filter (fun y => !(f y == f x)))
termination_by l => l.length
decreasing_by
  simp only [List.length_cons]
  exact Nat.lt_succ_of_le (List.length_filter_le _ _)

/-- The spec's dedup key: lowercased trimmed text. -/
def lowerTrimKey (s : String) : String := jsLower (jsTrim s)

/-! ## String-trimming lemmas -/

theorem string_data_mk (l : List Char) : (String.mk l).data = l := rfl

theorem string_ne_empty_of_data {s : String} (h : s.data ≠ []) : s ≠ "" :=
  fun he => h (by rw [he])

theorem head_dropWhile_not (p : Char → Bool) (l : List Char) :
    ∀ c, (l.dropWhile p).head? = some c → p c = false := by
  induction l with
  | nil => intro c hc; simp at hc
  | cons a as ih =>
    intro c hc
    rw [List.dropWhile_cons] at hc
    by_cases hpa : p a = true
    · rw [if_pos hpa] at hc
      exact ih c hc
    · rw [if_neg hpa] at hc
      simp only [List.head?_cons, Option.some.injEq] at hc
      subst hc
      exact Bool.not_eq_true _ ▸ hpa

theorem dropWhile_eq_self_of (p : Char → Bool) (l : List Char)
    (h : ∀ c, l.head? = some c → p c = false) : l.dropWhile p = l := by
  cases l with
  | nil => rfl
  | cons a as =>
    rw [List.dropWhile_cons, if_neg]
    simp [h a rfl]

theorem dropEnds_getLast_not (p : Char → Bool) (l : List Char) :
    ∀ c, (dropEnds p l).getLast? = some c → p c = false := by
  intro c hc
  unfold dropEnds at hc
  rw [List.getLast?_reverse] at hc
  exact head_dropWhile_not p _ c hc

theorem dropEnds_head_not (p : Char → Bool) (l : List Char) :
    ∀ c, (dropEnds p l).head? = some c → p c = false := by
  intro c hc
  unfold dropEnds at hc
  rw [List.head?_reverse] at hc
  obtain ⟨t, ht⟩ := List.dropWhile_suffix (l := (l.dropWhile p).reverse) p
  have hlast : ((l.dropWhile p).reverse).getLast? = some c := by
    rw [← ht, List.getLast?_append, hc]
    rfl
  rw [List.getLast?_reverse] at hlast
  exact head_dropWhile_not p l c hlast

theorem dropEnds_eq_self (p : Char → Bool) (l : List Char)
    (h1 : ∀ c, l.head? = some c → p c = false)
    (h2 : ∀ c, l.getLast? = some c → p c = false) : dropEnds p l = l := by
  unfold dropEnds
  rw [dropWhile_eq_self_of p l h1]
  rw [dropWhile_eq_self_of p l.reverse
    (fun c hc => h2 c (by rwa [List.head?_reverse] at hc))]
  exact List.reverse_reverse l

theorem dropEnds_idem (p : Char → Bool) (l : List Char) :
    dropEnds p (dropEnds p l) = dropEnds p l :=
  dropEnds_eq_self p _ (dropEnds_head_not p l) (dropEnds_getLast_not p l)

theorem dropEnds_of_stronger (p q : Char → Bool)
    (himp : ∀ c, p c = true → q c = true) (l : List Char) :
    dropEnds p (dropEnds q l) = dropEnds q l := by
  apply dropEnds_eq_self
  · intro c hc
    have hq := dropEnds_head_not q l c hc
    cases hpc : p c with
    | false => rfl
    | true => rw [himp c hpc] at hq; cases hq
  · intro c hc
    have hq := dropEnds_getLast_not q l c hc
    cases hpc : p c with
    | false => rfl
    | true => rw [himp c hpc] at hq; cases hq

theorem mem_dropWhile_of_not (p : Char → Bool) (c : Char)
    (hc : p c = false) : ∀ l : List Char, c ∈ l → c ∈ l.dropWhile p := by
  intro l
  induction l with
  | nil => intro h; cases h
  | cons a as ih =>
    intro h
    rw [List.dropWhile_cons]
    rcases List.mem_cons.mp h with rfl | hmem
    · rw [if_neg (by simp [hc])]
      exact List.mem_cons_self _ _
    · by_cases hpa : p a = true
      · rw [if_pos hpa]; exact ih hmem
      · rw [if_neg hpa]; exact h

theorem mem_dropEnds_of_not (p : Char → Bool) (c : Char)
    (hc : p c = false) (l : List Char) (h : c ∈ l) : c ∈ dropEnds p l := by
  unfold dropEnds
  rw [List.mem_reverse]
  exact mem_dropWhile_of_not p c hc _
    (List.mem_reverse.mpr (mem_dropWhile_of_not p c hc l h))

theorem mem_collapseWsChars_of_not_ws (c : Char) (hc : isJsWs c = false) :
    ∀ l : List Char, c ∈ l → c ∈ collapseWsChars l := by
  intro l
  induction l with
  | nil => intro h; cases h
  | cons a as ih =>
    intro h
    rw [collapseWsChars]
    rcases List.mem_cons.mp h with rfl | hmem
    · rw [if_neg (by simp [hc])]
      exact List.mem_cons_self _ _
    · by_cases hpa : isJsWs a = true
      · rw [if_pos hpa]
        cases hrest : collapseWsChars as with
        | nil => have := ih hmem; rw [hrest] at this; cases this
        | cons r rs =>
          have hmem2 : c ∈ r :: rs := by rw [← hrest]; exact ih hmem
          by_cases hr : r = ' '
          · subst hr; simpa using hmem2
          · have : (match r :: rs with
              | ' ' :: _ => r :: rs
              | _ => ' ' :: r :: rs) = ' ' :: r :: rs := by
              cases hrr : r
              simp_all
            simp only [this]
            exact List.mem_cons_of_mem _ hmem2
      · rw [if_neg hpa]
        exact List.mem_cons_of_mem _ (ih hmem)

theorem jsTrim_data (s : String) : (jsTrim s).data = dropEnds isJsWs s.data := rfl

theorem jsTrim_idem (s : String) : jsTrim (jsTrim s) = jsTrim s := by
  apply String.ext
  rw [jsTrim_data, jsTrim_data]
  exact dropEnds_idem isJsWs s.data

theorem ws_imp_quoteWs : ∀ c, isJsWs c = true → isQuoteWs c = true := by
  intro c h
  simp [isQuoteWs, h]

theorem jsTrim_of_quote_stripped (l : List Char) :
    jsTrim (String.mk (dropEnds isQuoteWs l)) = String.mk (dropEnds isQuoteWs l) := by
  apply String.ext
  rw [jsTrim_data]
  exact dropEnds_of_stronger isJsWs isQuoteWs ws_imp_quoteWs l

theorem trimmed_data_eq (code : String) (hcode : jsTrim code = code) :
    code.data = dropEnds isJsWs code.data := by
  calc code.data = (jsTrim code).data := by rw [hcode]
    _ = dropEnds isJsWs code.data := jsTrim_data code

theorem jsTrim_prefixed (pre code : String) (c : Char) (cs : List Char)
    (hpre : pre.data = c :: cs) (hcw : isJsWs c = false)
    (hcode : jsTrim code = code) (hne : code ≠ "") :
    jsTrim (pre ++ code) = pre ++ code := by
  apply String.ext
  rw [jsTrim_data, String.data_append]
  apply dropEnds_eq_self
  · intro d hd
    rw [hpre] at hd
    simp only [List.cons_append, List.head?_cons, Option.some.injEq] at hd
    rw [← hd]
    exact hcw
  · intro d hd
    rw [List.getLast?_append] at hd
    have hcd : code.data ≠ [] := by
      intro h
      exact hne (String.ext (by rw [h]))
    obtain ⟨e, he⟩ : ∃ e, code.data.getLast? = some e := by
      cases hg : code.data.getLast? with
      | none =>
        rw [List.getLast?_eq_getLast code.data hcd] at hg
        cases hg
      | some e => exact ⟨e, rfl⟩
    rw [he] at hd
    simp only [Option.or_some, Option.some.injEq] at hd
    rw [← hd]
    have he2 : (dropEnds isJsWs code.data).getLast? = some e := by
      rw [← trimmed_data_eq code hcode]
      exact he
    exact dropEnds_getLast_not isJsWs code.data e he2

/-! ## Deduplication lemmas -/

theorem dedupeKeyedAux_congr (f g : String → String) :
    ∀ (l : List String), (∀ x ∈ l, f x = g x) →
    ∀ seen, dedupeKeyedAux f seen l = dedupeKeyedAux g seen l := by
  intro l
  induction l with
  | nil => intro _ _; rfl
  | cons x xs ih =>
    intro h seen
    have hx : f x = g x := h x (List.mem_cons_self _ _)
    have hxs : ∀ y ∈ xs, f y = g y := fun y hy => h y (List.mem_cons_of_mem _ hy)
    rw [dedupeKeyedAux, dedupeKeyedAux, hx]
    by_cases hmem : g x ∈ seen
    · rw [if_pos hmem, if_pos hmem]
      exact ih hxs seen
    · rw [if_neg hmem, if_neg hmem]
      rw [ih hxs (g x :: seen)]

theorem dedupeKeyedAux_seen_ext (f : String → String) :
    ∀ (l : List String) (s₁ s₂ : List String),
    (∀ a, a ∈ s₁ ↔ a ∈ s₂) →
    dedupeKeyedAux f s₁ l = dedupeKeyedAux f s₂ l := by
  intro l
  induction l with
  | nil => intro _ _ _; rfl
  | cons x xs ih =>
    intro s₁ s₂ h
    rw [dedupeKeyedAux, dedupeKeyedAux]
    by_cases hmem : f x ∈ s₁
    · rw [if_pos hmem, if_pos ((h (f x)).mp hmem)]
      exact ih s₁ s₂ h
    · rw [if_neg hmem, if_neg (fun hc => hmem ((h (f x)).mpr hc))]
      rw [ih (f x :: s₁) (f x :: s₂)
        (fun a => by simp only [List.mem_cons]; rw [h a])]

theorem dedupeKeyedAux_cons (f : String → String) (seen : List String)
    (x : String) (xs : List String) :
    dedupeKeyedAux f seen (x :: xs) =
      if f x ∈ seen then dedupeKeyedAux f seen xs
      else x :: dedupeKeyedAux f (f x :: seen) xs := rfl

theorem dedupeFirstOcc_nil (f : String → String) :
    dedupeFirstOcc f [] = [] := by
  rw [dedupeFirstOcc]

theorem dedupeFirstOcc_cons (f : String → String) (x : String)
    (xs : List String) :
    dedupeFirstOcc f (x :: xs) =
      x :: dedupeFirstOcc f (xs.filter (fun y => !(f y == f x))) := by
  rw [dedupeFirstOcc]

theorem dedupeKeyedAux_cons_seen (f : String → String) :
    ∀ (l : List String) (seen : List String) (k : String),
    dedupeKeyedAux f (k :: seen) l =
      dedupeKeyedAux f seen (l.filter (fun y => !(f y == k))) := by
  intro l
  induction l with
  | nil => intro _ _; rfl
  | cons x xs ih =>
    intro seen k
    by_cases hxk : f x = k
    · have h1 : dedupeKeyedAux f (k :: seen) (x :: xs) =
          dedupeKeyedAux f (k :: seen) xs := by
        rw [dedupeKeyedAux_cons,
          if_pos (by rw [hxk]; exact List.mem_cons_self _ _)]
      have h2 : (x :: xs).filter (fun y => !(f y == k)) =
          xs.filter (fun y => !(f y == k)) := by
        rw [List.filter_cons, if_neg (by simp [hxk])]
      rw [h1, h2, ih seen k]
    · have h2 : (x :: xs).filter (fun y => !(f y == k)) =
          x :: xs.filter (fun y => !(f y == k)) := by
        rw [List.filter_cons, if_pos (by simp [hxk])]
      rw [h2, dedupeKeyedAux_cons f seen x, dedupeKeyedAux_cons f (k :: seen) x]
      by_cases hmem : f x ∈ seen
      · rw [if_pos (List.mem_cons_of_mem _ hmem), if_pos hmem, ih seen k]
      · rw [if_neg (by
          intro hc
          rcases List.mem_cons.mp hc with he | hm
          · exact hxk he
          · exact hmem hm)]
        rw [if_neg hmem]
        rw [dedupeKeyedAux_seen_ext f xs (f x :: k :: seen) (k :: f x :: seen)
          (fun a => by simp only [List.mem_cons]; tauto)]
        rw [ih (f x :: seen) k]

theorem dedupeKeyedAux_nil_eq (f : String → String) :
    ∀ (n : Nat) (l : List String), l.length ≤ n →
    dedupeKeyedAux f [] l = dedupeFirstOcc f l := by
  intro n
  induction n with
  | zero =>
    intro l hl
    have h0 : l = [] := List.length_eq_zero.mp (Nat.le_zero.mp hl)
    subst h0
    rw [dedupeFirstOcc_nil]
    rfl
  | succ m ih =>
    intro l hl
    cases l with
    | nil =>
      rw [dedupeFirstOcc_nil]
      rfl
    | cons x xs =>
      rw [dedupeKeyedAux_cons, if_neg (List.not_mem_nil _)]
      rw [dedupeKeyedAux_cons_seen f xs [] (f x)]
      rw [ih (xs.filter (fun y => !(f y == f x)))
        (Nat.le_trans (List.length_filter_le _ _)
          (Nat.le_of_succ_le_succ hl))]
      rw [dedupeFirstOcc_cons]

theorem dedupe_eq_firstOcc (l : List String) :
    dedupe l = dedupeFirstOcc jsLower l :=
  dedupeKeyedAux_nil_eq jsLower l.length l (Nat.le_refl _)

theorem mem_of_mem_dedupeKeyedAux (f : String → String) :
    ∀ (l seen : List String) (x : String),
    x ∈ dedupeKeyedAux f seen l → x ∈ l := by
  intro l
  induction l with
  | nil => intro _ _ h; cases h
  | cons a as ih =>
    intro seen x h
    rw [dedupeKeyedAux] at h
    by_cases hmem : f a ∈ seen
    · rw [if_pos hmem] at h
      exact List.mem_cons_of_mem _ (ih seen x h)
    · rw [if_neg hmem] at h
      rcases List.mem_cons.mp h with he | hm
      · rw [he]; exact List.mem_cons_self _ _
      · exact List.mem_cons_of_mem _ (ih (f a :: seen) x hm)

/-! ## Trimmedness of the segmenter strategies -/

theorem extractListItems_trimmed (b : CommentBody) :
    ∀ x ∈ extractListItems b, jsTrim x = x ∧ x ≠ "" := by
  intro x hx
  rw [extractListItems, List.mem_filterMap] at hx
  obtain ⟨t, _, ht⟩ := hx
  dsimp only at ht
  by_cases h : jsTrim t = ""
  · rw [if_pos h] at ht; cases ht
  · rw [if_neg h] at ht
    cases ht
    exact ⟨jsTrim_idem t, h⟩

theorem extractPatternLines_trimmed (b : CommentBody) :
    ∀ x ∈ extractPatternLines b, jsTrim x = x ∧ x ≠ "" := by
  intro x hx
  rw [extractPatternLines] at hx
  by_cases htext : jsTrim b.fullText = ""
  · rw [if_pos htext] at hx; cases hx
  · rw [if_neg htext] at hx
    rw [List.mem_filterMap] at hx
    obtain ⟨line, _, hline⟩ := hx
    cases hcand : patternLineCandidate line with
    | none => rw [hcand] at hline; cases hline
    | some cand =>
      rw [hcand] at hline
      dsimp only at hline
      by_cases hcl : String.mk (dropEnds isQuoteWs cand.data) = ""
      · rw [if_pos hcl] at hline; cases hline
      · rw [if_neg hcl] at hline
        cases hline
        exact ⟨jsTrim_of_quote_stripped cand.data, hcl⟩

theorem prefixed_block_props (pre code : String) (c : Char) (cs : List Char)
    (hpre : pre.data = c :: cs) (hcw : isJsWs c = false)
    (hcode : jsTrim code = code) (hne : code ≠ "") :
    jsTrim (pre ++ code) = pre ++ code ∧ pre ++ code ≠ "" := by
  refine ⟨jsTrim_prefixed pre code c cs hpre hcw hcode hne, ?_⟩
  apply string_ne_empty_of_data
  rw [String.data_append, hpre]
  simp

theorem extractSuggestedChangeBlocks_trimmed (b : CommentBody) :
    ∀ x ∈ extractSuggestedChangeBlocks b, jsTrim x = x ∧ x ≠ "" := by
  intro x hx
  rw [extractSuggestedChangeBlocks] at hx
  rcases List.mem_append.mp hx with hx12 | hx3
  rcases List.mem_append.mp hx12 with hx1 | hx2
  · rw [List.mem_filterMap] at hx1
    obtain ⟨d, _, hd⟩ := hx1
    dsimp only at hd
    by_cases hsum : (containsSub "suggested change" (jsLower (jsTrim d.summaryText)) ||
        containsSub "suggestion" (jsLower (jsTrim d.summaryText))) = true
    · rw [if_pos hsum] at hd
      by_cases hcode : jsTrim d.preCodeText ≠ ""
      · rw [if_pos hcode] at hd
        cases hd
        exact prefixed_block_props "Suggested change:\n" (jsTrim d.preCodeText)
          'S' "uggested change:\n".data rfl (by decide)
          (jsTrim_idem d.preCodeText) hcode
      · rw [if_neg hcode] at hd; cases hd
    · rw [if_neg hsum] at hd; cases hd
  · rw [List.mem_filterMap] at hx2
    obtain ⟨rows, _, hr⟩ := hx2
    dsimp only at hr
    by_cases hdiff : jsTrim (joinSep "\n" (rows.filterMap (fun r =>
        let txt := jsTrim r.cellText
        if txt = "" then none
        else if r.hasDeletion then some ("- " ++ txt)
        else if r.hasAddition then some ("+ " ++ txt)
        else some ("  " ++ txt)))) ≠ ""
    · rw [if_pos hdiff] at hr
      cases hr
      exact prefixed_block_props "Suggested diff:\n" _
        'S' "uggested diff:\n".data rfl (by decide) (jsTrim_idem _) hdiff
    · rw [if_neg hdiff] at hr; cases hr
  · rw [List.mem_filterMap] at hx3
    obtain ⟨p, _, hp⟩ := hx3
    dsimp only at hp
    by_cases hcd : (decide (jsTrim p ≠ "") && diffLike (jsTrim p)) = true
    · rw [if_pos hcd] at hp
      cases hp
      have hne : jsTrim p ≠ "" := by
        intro he
        rw [he] at hcd
        simp at hcd
      exact prefixed_block_props "Suggested diff:\n" (jsTrim p)
        'S' "uggested diff:\n".data rfl (by decide) (jsTrim_idem p) hne
    · rw [if_neg hcd] at hp; cases hp

theorem segment_concat_trimmed (b : CommentBody) :
    ∀ x ∈ extractListItems b ++ extractPatternLines b ++
      extractSuggestedChangeBlocks b, jsTrim x = x ∧ x ≠ "" := by
  intro x hx
  rcases List.mem_append.mp hx with hx12 | hx3
  · rcases List.mem_append.mp hx12 with hx1 | hx2
    · exact extractListItems_trimmed b x hx1
    · exact extractPatternLines_trimmed b x hx2
  · exact extractSuggestedChangeBlocks_trimmed b x hx3

/-- C8: for every comment with a body, `extractSuggestionsFromComment`
returns the concatenation of the three structured strategies' outputs with
duplicates removed by lowercased trimmed text, keeping the first
occurrence of each key in first-seen order.  `dedupeFirstOcc` is the
spec's description of that deduplication; the source dedupes by lowercase
only, but every strategy output is already trimmed, so the two keys agree
on the deduplicated list. -/
theorem c8_segment_dedupes_by_lower_trim (c : CommentRoot) (b : CommentBody)
    (hb : c.body? = some b) :
    extractSuggestionsFromComment c =
      dedupeFirstOcc lowerTrimKey
        (extractListItems b ++ extractPatternLines b ++
         extractSuggestedChangeBlocks b) := by
  have hseg : extractSuggestionsFromComment c =
      dedupe (extractListItems b ++ extractPatternLines b ++
        extractSuggestedChangeBlocks b) := by
    simp only [extractSuggestionsFromComment, hb]
  rw [hseg, dedupe]
  rw [dedupeKeyedAux_congr jsLower lowerTrimKey _
    (fun x hx => by
      show jsLower x = jsLower (jsTrim x)
      rw [(segment_concat_trimmed b x hx).1]) []]
  exact dedupeKeyedAux_nil_eq lowerTrimKey _ _ (Nat.le_refl _)

/-- Witness comment body for the C8 theorem: a bullet list with a
case-insensitive duplicate and a keyword-prefixed pattern line. -/
def c8Body : CommentBody :=
  { liTexts := ["Use async/await here", "  use ASYNC/await here  ", "Add tests"]
    fullText := "Fix: remove the unused import"
    detailsBlocks := []
    suggTables := []
    preTexts := []
    codeTexts := [] }

/-- Witness comment root for the C8 theorem. -/
def c8Root : CommentRoot :=
  { hasTaskLists := false
    body? := some c8Body
    proseTextRaw := some "Use async/await here"
    authorText := "Copilot"
    authorHref := ""
    botBadgeText := ""
    anchorHref := none }

/-- Witness for C8 at a concrete comment. -/
theorem c8_segment_dedupes_by_lower_trim_witness :
    extractSuggestionsFromComment c8Root =
      dedupeFirstOcc lowerTrimKey
        (extractListItems c8Body ++ extractPatternLines c8Body ++
         extractSuggestedChangeBlocks c8Body) :=
  c8_segment_dedupes_by_lower_trim c8Root c8Body rfl

/-! ## Line-range locator lemmas -/

theorem mem_jsSetDedupAux :
    ∀ (l seen : List Int) (x : Int),
    x ∈ jsSetDedupAux seen l ↔ x ∈ l ∧ x ∉ seen := by
  intro l
  induction l with
  | nil => intro seen x; simp [jsSetDedupAux]
  | cons a as ih =>
    intro seen x
    rw [jsSetDedupAux]
    by_cases hmem : a ∈ seen
    · rw [if_pos hmem, ih seen x, List.mem_cons]
      constructor
      · rintro ⟨hx, hns⟩; exact ⟨Or.inr hx, hns⟩
      · rintro ⟨hx | hx, hns⟩
        · exact absurd (hx ▸ hmem) hns
        · exact ⟨hx, hns⟩
    · rw [if_neg hmem]
      by_cases hxa : x = a
      · subst hxa
        exact iff_of_true (List.mem_cons_self _ _)
          ⟨List.mem_cons_self _ _, hmem⟩
      · constructor
        · intro hmx
          rcases List.mem_cons.mp hmx with he | hx2
          · exact absurd he hxa
          · obtain ⟨h1, h2⟩ := (ih (a :: seen) x).mp hx2
            exact ⟨List.mem_cons_of_mem _ h1,
              fun hc => h2 (List.mem_cons_of_mem _ hc)⟩
        · rintro ⟨hmx, hns⟩
          rcases List.mem_cons.mp hmx with he | hx2
          · exact absurd he hxa
          · refine List.mem_cons_of_mem _ ((ih (a :: seen) x).mpr ⟨hx2, ?_⟩)
            intro hc
            rcases List.mem_cons.mp hc with he | hs
            · exact hxa he
            · exact hns hs

theorem mem_jsSetDedup (l : List Int) (x : Int) :
    x ∈ jsSetDedup l ↔ x ∈ l := by
  rw [jsSetDedup, mem_jsSetDedupAux]
  simp

theorem mem_of_getLastQ {α : Type} :
    ∀ (l : List α) (b : α), l.getLast? = some b → b ∈ l := by
  intro l b h
  have hr : l.reverse.head? = some b := by rw [List.head?_reverse]; exact h
  exact List.mem_reverse.mp (List.mem_of_mem_head? hr)

theorem sorted_le_getLast :
    ∀ (l : List Int), List.Sorted (fun a b => a ≤ b) l →
    ∀ x ∈ l, ∀ b, l.getLast? = some b → x ≤ b := by
  intro l
  induction l with
  | nil => intro _ x hx; cases hx
  | cons a as ih =>
    intro hs x hx b hb
    cases as with
    | nil =>
      have hxa : x = a := by simpa using hx
      have hab : a = b := by simpa using hb
      rw [hxa, hab]
    | cons c cs =>
      rw [List.getLast?_cons_cons] at hb
      have hsc := List.sorted_cons.mp hs
      have hbmem : b ∈ c :: cs := mem_of_getLastQ _ b hb
      rcases List.mem_cons.mp hx with rfl | hxm
      · exact hsc.1 b hbmem
      · exact ih hsc.2 x hxm b hb

/-- C5: the line range locator yields both fields `null` exactly on an
empty merged candidate set, and otherwise both fields present with the
minimum and maximum of the merged candidates, so `lineStart ≤ lineEnd`
holds whenever both are present. -/
theorem c5_lineRange_both_or_none (f : Frame) :
    (lineCandidates f = [] → findLineRangeInFrame f = (none, none)) ∧
    (lineCandidates f ≠ [] →
      ∃ a b, findLineRangeInFrame f = (some a, some b) ∧ a ≤ b ∧
        a ∈ lineCandidates f ∧ b ∈ lineCandidates f ∧
        ∀ x ∈ lineCandidates f, a ≤ x ∧ x ≤ b) := by
  constructor
  · intro h
    simp [findLineRangeInFrame, h, jsSetDedup, jsSetDedupAux]
  · intro h
    obtain ⟨y, hy⟩ := List.exists_mem_of_ne_nil _ h
    have hyu : y ∈ jsSetDedup (lineCandidates f) := (mem_jsSetDedup _ y).mpr hy
    obtain ⟨u, us, hu⟩ : ∃ u us, jsSetDedup (lineCandidates f) = u :: us := by
      cases hc : jsSetDedup (lineCandidates f) with
      | nil => rw [hc] at hyu; cases hyu
      | cons u us => exact ⟨u, us, rfl⟩
    have hperm := List.perm_insertionSort (fun a b => a ≤ b) (u :: us)
    have hsorted := List.sorted_insertionSort (fun a b => a ≤ b) (u :: us)
    have hne : (u :: us).insertionSort (fun a b => a ≤ b) ≠ [] := by
      intro h0
      have hl := hperm.length_eq
      rw [h0] at hl
      simp at hl
    have hmemiff : ∀ x, x ∈ (u :: us).insertionSort (fun a b => a ≤ b) ↔
        x ∈ lineCandidates f := by
      intro x
      rw [hperm.mem_iff, ← hu, mem_jsSetDedup]
    have hfr : findLineRangeInFrame f =
        (((u :: us).insertionSort (fun a b => a ≤ b)).head?,
         ((u :: us).insertionSort (fun a b => a ≤ b)).getLast?) := by
      simp only [findLineRangeInFrame, hu, List.isEmpty_cons]
      rfl
    obtain ⟨a, rest, harr⟩ : ∃ a rest,
        (u :: us).insertionSort (fun a b => a ≤ b) = a :: rest := by
      cases hc : (u :: us).insertionSort (fun a b => a ≤ b) with
      | nil => exact absurd hc hne
      | cons a rest => exact ⟨a, rest, rfl⟩
    obtain ⟨b, hb⟩ : ∃ b,
        ((u :: us).insertionSort (fun a b => a ≤ b)).getLast? = some b := by
      rw [List.getLast?_eq_getLast _ hne]
      exact ⟨_, rfl⟩
    refine ⟨a, b, ?_, ?_, ?_, ?_, ?_⟩
    · have hb2 := hb
      rw [harr] at hb2
      rw [hfr, harr, hb2]
      simp only [List.head?_cons]
    · exact sorted_le_getLast _ hsorted a
        (by rw [harr]; exact List.mem_cons_self _ _) b hb
    · exact (hmemiff a).mp (by rw [harr]; exact List.mem_cons_self _ _)
    · exact (hmemiff b).mp (mem_of_getLastQ _ b hb)
    · intro x hx
      have hxarr := (hmemiff x).mpr hx
      constructor
      · rw [harr] at hxarr hsorted
        rcases List.mem_cons.mp hxarr with rfl | hxm
        · exact le_refl x
        · exact (List.sorted_cons.mp hsorted).1 x hxm
      · exact sorted_le_getLast _ hsorted x hxarr b hb

/-- Witness frame for C5 with no line-number evidence. -/
def c5FrameEmpty : Frame :=
  { idAttr := "review-thread-or-comment-id-5"
    outerHTML := ""
    specificFileLinkText := none
    dataPathAttr := none
    fileLinkText := none
    pathyText := none
    lineDivText := none
    dataLineNumbers := []
    blobNumTexts := []
    anchorHrefs := []
    codeTable := none
    comments := [] }

/-- Witness frame for C5 with mixed line-number evidence. -/
def c5FrameFull : Frame :=
  { idAttr := "review-thread-or-comment-id-6"
    outerHTML := ""
    specificFileLinkText := none
    dataPathAttr := none
    fileLinkText := none
    pathyText := none
    lineDivText := some "Lines 42-45"
    dataLineNumbers := ["12"]
    blobNumTexts := ["+67"]
    anchorHrefs := ["https://example.test/pr#R3"]
    codeTable := none
    comments := [] }

/-- Witness for C5 at two concrete frames. -/
theorem c5_lineRange_both_or_none_witness :
    findLineRangeInFrame c5FrameEmpty = (none, none) ∧
    (∃ a b, findLineRangeInFrame c5FrameFull = (some a, some b) ∧ a ≤ b ∧
      a ∈ lineCandidates c5FrameFull ∧ b ∈ lineCandidates c5FrameFull ∧
      ∀ x ∈ lineCandidates c5FrameFull, a ≤ x ∧ x ≤ b) :=
  ⟨(c5_lineRange_both_or_none c5FrameEmpty).1 (by decide),
   (c5_lineRange_both_or_none c5FrameFull).2 (by decide)⟩

/-- C3: for every candidate list built by the orchestrator, if at least
one suggestion carries the primary-author flag the result is exactly the
flagged sublist in original order, and otherwise the candidate list is
returned unchanged. -/
theorem c3_global_filter (page : Page) :
    ((∃ s ∈ buildCandidates page, s.isCopilot = true) →
      extractAllSuggestions page =
        (buildCandidates page).filter (fun s => s.isCopilot)) ∧
    ((∀ s ∈ buildCandidates page, s.isCopilot = false) →
      extractAllSuggestions page = buildCandidates page) := by
  constructor
  · intro h
    rw [extractAllSuggestions, applyGlobalFilter,
      if_pos (List.any_eq_true.mpr h)]
  · intro h
    rw [extractAllSuggestions, applyGlobalFilter, if_neg]
    intro hc
    obtain ⟨s, hs, hsc⟩ := List.any_eq_true.mp hc
    rw [h s hs] at hsc
    cases hsc

/-- Witness page for C3 containing one Copilot-authored plain comment
with a bullet suggestion and one non-Copilot comment. -/
def c3PageFlagged : Page :=
  { href := "https://example.test/owner/repo/pull/3"
    frames :=
      [{ idAttr := "review-thread-or-comment-id-31"
         outerHTML := ""
         specificFileLinkText := none
         dataPathAttr := none
         fileLinkText := none
         pathyText := none
         lineDivText := none
         dataLineNumbers := []
         blobNumTexts := []
         anchorHrefs := []
         codeTable := none
         comments :=
           [{ hasTaskLists := false
              body? := some
                { liTexts := ["Rename the variable"]
                  fullText := "Rename the variable"
                  detailsBlocks := []
                  suggTables := []
                  preTexts := []
                  codeTexts := [] }
              proseTextRaw := some "Rename the variable"
              authorText := "Copilot"
              authorHref := ""
              botBadgeText := ""
              anchorHref := none },
            { hasTaskLists := false
              body? := some
                { liTexts := ["Looks good to me"]
                  fullText := "Looks good to me"
                  detailsBlocks := []
                  suggTables := []
                  preTexts := []
                  codeTexts := [] }
              proseTextRaw := some "Looks good to me"
              authorText := "humandev"
              authorHref := "https://example.test/humandev"
              botBadgeText := ""
              anchorHref := none }] }] }

/-- Witness page for C3 with no Copilot-authored comments. -/
def c3PageUnflagged : Page :=
  { href := "https://example.test/owner/repo/pull/4"
    frames :=
      [{ idAttr := "review-thread-or-comment-id-41"
         outerHTML := ""
         specificFileLinkText := none
         dataPathAttr := none
         fileLinkText := none
         pathyText := none
         lineDivText := none
         dataLineNumbers := []
         blobNumTexts := []
         anchorHrefs := []
         codeTable := none
         comments :=
           [{ hasTaskLists := false
              body? := some
                { liTexts := ["Consider a smaller buffer"]
                  fullText := "Consider a smaller buffer"
                  detailsBlocks := []
                  suggTables := []
                  preTexts := []
                  codeTexts := [] }
              proseTextRaw := some "Consider a smaller buffer"
              authorText := "humandev"
              authorHref := "https://example.test/humandev"
              botBadgeText := ""
              anchorHref := none }] }] }

/-- Witness for C3 at two concrete pages, one per branch of the policy. -/
theorem c3_global_filter_witness :
    extractAllSuggestions c3PageFlagged =
      (buildCandidates c3PageFlagged).filter (fun s => s.isCopilot) ∧
    extractAllSuggestions c3PageUnflagged = buildCandidates c3PageUnflagged :=
  ⟨(c3_global_filter c3PageFlagged).1 (by decide),
   (c3_global_filter c3PageUnflagged).2 (by decide)⟩

/-- C6 counterexample: the strings `gbrvmba` and `ommouwc` are distinct
but collide under the script's 32-bit FNV-1a hash (both render as
`12qfddq` in base 36), so two suggestions in the same container, comment
and item slot that differ only in their text receive the same id.  This
refutes the claim that such ids always differ. -/
theorem c6_counterexample :
    mkSuggestionId "review-thread-or-comment-id-1" 0 0 "gbrvmba" =
      mkSuggestionId "review-thread-or-comment-id-1" 0 0 "ommouwc" ∧
    ("gbrvmba" : String) ≠ "ommouwc" := by
  constructor
  · decide
  · decide

/-- C6 amended: two suggestions in the same slot that differ only in
their text receive different ids whenever their texts' 32-bit FNV-1a
hashes differ; equal hashes (collisions exist, see the counterexample)
are the only way the ids can coincide. -/
theorem c6_id_distinct_of_hash_distinct (frameId : String) (idx i : Nat)
    (t1 t2 : String) (h : hashString t1 ≠ hashString t2) :
    mkSuggestionId frameId idx i t1 ≠ mkSuggestionId frameId idx i t2 := by
  intro he
  apply h
  have hd := congrArg String.data he
  rw [mkSuggestionId, mkSuggestionId] at hd
  simp only [String.data_append] at hd
  exact String.ext (List.append_cancel_left hd)

/-- Witness for the amended C6 at two concrete texts with distinct
hashes. -/
theorem c6_id_distinct_of_hash_distinct_witness :
    mkSuggestionId "review-thread-or-comment-id-2" 1 0 "Add a null check" ≠
      mkSuggestionId "review-thread-or-comment-id-2" 1 0 "Remove the cast" :=
  c6_id_distinct_of_hash_distinct "review-thread-or-comment-id-2" 1 0
    "Add a null check" "Remove the cast" (by decide)

/-! ## C7: the suggested-change section of one prompt item -/

/-- Comment of the C7 counterexample page: a plain bullet item whose text
also becomes its summary, with no review prose and no change block. -/
def c7Comment : CommentRoot :=
  { hasTaskLists := false
    body? := some
      { liTexts := ["Fix this bug now"]
        fullText := "Fix this bug now"
        detailsBlocks := []
        suggTables := []
        preTexts := []
        codeTexts := [] }
    proseTextRaw := none
    authorText := "Copilot"
    authorHref := ""
    botBadgeText := ""
    anchorHref := none }

/-- Frame of the C7 counterexample page. -/
def c7Frame : Frame :=
  { idAttr := "review-thread-or-comment-id-71"
    outerHTML := ""
    specificFileLinkText := none
    dataPathAttr := none
    fileLinkText := none
    pathyText := none
    lineDivText := none
    dataLineNumbers := []
    blobNumTexts := []
    anchorHrefs := []
    codeTable := none
    comments := [c7Comment] }

/-- The C7 counterexample page. -/
def c7Page : Page :=
  { href := "https://example.test/owner/repo/pull/7"
    frames := [c7Frame] }

/-- The pipeline-produced record of the C7 counterexample: its `text`
equals its `summary` and it has no `suggestedChange`. -/
def c7Record : Suggestion :=
  mkSuggestion "https://example.test/owner/repo/pull/7" c7Frame 0 c7Comment 0
    "Fix this bug now"

/-- C7 counterexample: a real extraction produces a record whose `text`
equals its `summary` and has no `suggestedChange`; its prompt item block
is the bare summary line and contains no suggested-change section at all,
refuting the claim that the block always carries one derived from `text`
when `suggestedChange` is absent. -/
theorem c7_counterexample :
    c7Record ∈ buildCandidates c7Page ∧
    promptItemParts c7Record 0 = ["#1 Fix this bug now"] ∧
    "Suggested change:\nFix this bug now" ∉ promptItemParts c7Record 0 := by
  refine ⟨by decide, by decide, by decide⟩

theorem promptBlock_mem (s : Suggestion) (idx : Nat) (b : String)
    (hb : buildPromptSuggestionBlock s = some b) (hne : b ≠ "") :
    b ∈ promptItemParts s idx := by
  rw [promptItemParts]
  apply List.mem_filter.mpr
  refine ⟨?_, by simpa using hne⟩
  apply List.mem_filterMap.mpr
  refine ⟨some b, ?_, rfl⟩
  rw [← hb]
  simp [List.mem_cons]

theorem prefixed_string_ne_empty (pre rest : String) (c : Char)
    (cs : List Char) (hpre : pre.data = c :: cs) : pre ++ rest ≠ "" := by
  apply string_ne_empty_of_data
  rw [String.data_append, hpre]
  simp

/-- C7 amended: the per-item block of the prompt builder contains a
suggested-change section derived from `suggestedChange` when that field
is present and non-empty; otherwise a section derived from `text` only
when `text` is non-empty and differs from `summary`; in both cases the
chosen string is prefixed with `Suggested change:` unless its trimmed
form already starts with `Suggested`. -/
theorem c7_prompt_block_amended (s : Suggestion) (idx : Nat) :
    (optStrTruthy s.suggestedChange = true →
      (if strStartsWith (jsTrim (s.suggestedChange.getD "")) "Suggested"
       then s.suggestedChange.getD ""
       else "Suggested change:\n" ++ s.suggestedChange.getD "") ∈
        promptItemParts s idx) ∧
    (optStrTruthy s.suggestedChange = false → s.text ≠ "" →
      s.text ≠ s.summary →
      (if strStartsWith (jsTrim s.text) "Suggested" then s.text
       else "Suggested change:\n" ++ s.text) ∈ promptItemParts s idx) := by
  constructor
  · intro h
    have hc : s.suggestedChange.getD "" ≠ "" := by
      cases hs : s.suggestedChange with
      | none => rw [hs] at h; cases h
      | some c =>
        rw [hs] at h
        simp only [optStrTruthy, Bool.not_eq_true', beq_eq_false_iff_ne,
          ne_eq] at h
        simpa using h
    apply promptBlock_mem s idx
    · rw [buildPromptSuggestionBlock, if_pos h]
    · by_cases hp : strStartsWith (jsTrim (s.suggestedChange.getD ""))
          "Suggested" = true
      · rw [if_pos hp]; exact hc
      · rw [if_neg hp]
        exact prefixed_string_ne_empty "Suggested change:\n" _ 'S'
          "uggested change:\n".data rfl
  · intro h ht hts
    apply promptBlock_mem s idx
    · rw [buildPromptSuggestionBlock, if_neg (by rw [h]; simp),
        if_pos (by simp [ht, hts])]
    · by_cases hp : strStartsWith (jsTrim s.text) "Suggested" = true
      · rw [if_pos hp]; exact ht
      · rw [if_neg hp]
        exact prefixed_string_ne_empty "Suggested change:\n" _ 'S'
          "uggested change:\n".data rfl

/-- Witness record for the first branch of the amended C7: a truthy
`suggestedChange`. -/
def c7WitnessA : Suggestion :=
  { id := "review-thread-or-comment-id-72:0:0:1"
    text := "Use a guard clause"
    summary := "Use a guard clause"
    sourceUrl := "https://example.test/pr"
    isCopilot := true
    filePath := none
    lineStart := none
    lineEnd := none
    codeMentioned := none
    reviewText := none
    suggestedChange := some "- old line\n+ new line" }

/-- Witness record for the second branch of the amended C7: no
`suggestedChange` and `text` distinct from `summary`. -/
def c7WitnessB : Suggestion :=
  { id := "review-thread-or-comment-id-73:0:0:2"
    text := "Use a guard clause instead of the nested conditional"
    summary := "Shorter summary"
    sourceUrl := "https://example.test/pr"
    isCopilot := true
    filePath := none
    lineStart := none
    lineEnd := none
    codeMentioned := none
    reviewText := none
    suggestedChange := none }

/-- Witness for the amended C7 at two concrete records. -/
theorem c7_prompt_block_amended_witness :
    "Suggested change:\n- old line\n+ new line" ∈
      promptItemParts c7WitnessA 0 ∧
    "Suggested change:\nUse a guard clause instead of the nested conditional" ∈
      promptItemParts c7WitnessB 0 := by
  constructor
  · have h := (c7_prompt_block_amended c7WitnessA 0).1 (by decide)
    rw [if_neg (by decide)] at h
    exact h
  · have h := (c7_prompt_block_amended c7WitnessB 0).2 (by decide) (by decide)
      (by decide)
    rw [if_neg (by decide)] at h
    exact h

/-! ## C4: the JSON builder's record shape -/

/-- The nine keys of every normalized suggestion record. -/
def jsonKeys : List String :=
  ["id", "filePath", "lineStart", "lineEnd", "summary",
   "codeMentioned", "reviewText", "suggestedChange", "sourceUrl"]

/-- C4: the serialized document's `suggestions` array has exactly one
record per selected suggestion, every record carries all nine keys, and
every absent optional field appears as an explicit JSON `null`, never as
a missing key.  Serialization is modelled at the JSON value level, on
which stringify followed by parse is the identity. -/
theorem c4_buildJSON_shape (href : String) (items : List Suggestion) :
    jTop (buildJSON href items) "suggestions" =
      some (JVal.arr (items.map normalizeSuggestion)) ∧
    (items.map normalizeSuggestion).length = items.length ∧
    (∀ s ∈ items, ∀ k ∈ jsonKeys,
      (jTop (normalizeSuggestion s) k).isSome = true) ∧
    (∀ s ∈ items,
      (s.filePath = none →
        jTop (normalizeSuggestion s) "filePath" = some JVal.null) ∧
      (s.lineStart = none →
        jTop (normalizeSuggestion s) "lineStart" = some JVal.null) ∧
      (s.lineEnd = none →
        jTop (normalizeSuggestion s) "lineEnd" = some JVal.null) ∧
      (s.codeMentioned = none →
        jTop (normalizeSuggestion s) "codeMentioned" = some JVal.null) ∧
      (s.reviewText = none →
        jTop (normalizeSuggestion s) "reviewText" = some JVal.null) ∧
      (s.suggestedChange = none →
        jTop (normalizeSuggestion s) "suggestedChange" = some JVal.null)) := by
  refine ⟨rfl, List.length_map _ _, ?_, ?_⟩
  · intro s _ k hk
    fin_cases hk <;> rfl
  · intro s _
    refine ⟨?_, ?_, ?_, ?_, ?_, ?_⟩
    · intro h
      rw [show jTop (normalizeSuggestion s) "filePath" =
          some (jOptStr s.filePath) from rfl, h]
      rfl
    · intro h
      rw [show jTop (normalizeSuggestion s) "lineStart" =
          some (jOptNum s.lineStart) from rfl, h]
      rfl
    · intro h
      rw [show jTop (normalizeSuggestion s) "lineEnd" =
          some (jOptNum s.lineEnd) from rfl, h]
      rfl
    · intro h
      rw [show jTop (normalizeSuggestion s) "codeMentioned" =
          some (jOptStr s.codeMentioned) from rfl, h]
      rfl
    · intro h
      rw [show jTop (normalizeSuggestion s) "reviewText" =
          some (jOptStr s.reviewText) from rfl, h]
      rfl
    · intro h
      rw [show jTop (normalizeSuggestion s) "suggestedChange" =
          some (jOptStr s.suggestedChange) from rfl, h]
      rfl

/-- Witness record for C4 with every optional field absent. -/
def c4Item : Suggestion :=
  { id := "review-thread-or-comment-id-44:0:0:3"
    text := "Tighten the error handling"
    summary := "Tighten the error handling"
    sourceUrl := "https://example.test/owner/repo/pull/44"
    isCopilot := true
    filePath := none
    lineStart := none
    lineEnd := none
    codeMentioned := none
    reviewText := none
    suggestedChange := none }

/-- Witness for C4 at a concrete one-element selection. -/
theorem c4_buildJSON_shape_witness :
    jTop (buildJSON "https://example.test/owner/repo/pull/44" [c4Item])
        "suggestions" =
      some (JVal.arr ([c4Item].map normalizeSuggestion)) ∧
    ([c4Item].map normalizeSuggestion).length = [c4Item].length ∧
    jTop (normalizeSuggestion c4Item) "filePath" = some JVal.null ∧
    jTop (normalizeSuggestion c4Item) "suggestedChange" = some JVal.null := by
  have h := c4_buildJSON_shape "https://example.test/owner/repo/pull/44"
    [c4Item]
  have hmem : c4Item ∈ [c4Item] := List.mem_singleton.mpr rfl
  have h4 := h.2.2.2 c4Item hmem
  exact ⟨h.1, h.2.1, h4.1 rfl, h4.2.2.2.2.2 rfl⟩

/-! ## C9: the selection state store never raises -/

/-- C9: every store operation returns normally for every behaviour of the
persistence layer; a failing read yields the empty set and a failing save
is ignored. -/
theorem c9_storage_never_throws :
    (∀ e parseJSON, getDeselectedSet (Except.error e) parseJSON =
      Except.ok []) ∧
    (∀ e parseJSON, getIgnoredSet (Except.error e) parseJSON =
      Except.ok []) ∧
    (∀ g parseJSON, ∃ v, getDeselectedSet g parseJSON = Except.ok v) ∧
    (∀ g parseJSON, ∃ v, getIgnoredSet g parseJSON = Except.ok v) ∧
    (∀ w ids, saveDeselectedSet w ids = Except.ok ()) ∧
    (∀ w ids, saveIgnoredSet w ids = Except.ok ()) := by
  refine ⟨fun e p => rfl, fun e p => rfl, ?_, ?_, ?_, ?_⟩
  · intro g p
    cases hb : storageReadBody g p with
    | ok v => exact ⟨v, by rw [getDeselectedSet, hb]; rfl⟩
    | error e => exact ⟨[], by rw [getDeselectedSet, hb]; rfl⟩
  · intro g p
    cases hb : storageReadBody g p with
    | ok v => exact ⟨v, by rw [getIgnoredSet, hb]; rfl⟩
    | error e => exact ⟨[], by rw [getIgnoredSet, hb]; rfl⟩
  · intro w ids
    cases hw : w (stringifyIds ids) with
    | ok u => cases u; rw [saveDeselectedSet, hw]; rfl
    | error e => rw [saveDeselectedSet, hw]; rfl
  · intro w ids
    cases hw : w (stringifyIds ids) with
    | ok u => cases u; rw [saveIgnoredSet, hw]; rfl
    | error e => rw [saveIgnoredSet, hw]; rfl

/-! ## C10: summary length and non-emptiness -/

theorem jsTake_length (s : String) (n : Nat) :
    (jsTake s n).length = min n s.length := by
  show (s.data.take n).length = min n s.data.length
  rw [List.length_take]

theorem ne_empty_of_length_pos (s : String) (h : 0 < s.length) : s ≠ "" := by
  intro he
  rw [he] at h
  simp at h

theorem summarize_length_le (s : String) : (summarize s).length ≤ 140 := by
  simp only [summarize]
  by_cases hle : (jsTrim (collapseWs s)).length ≤ 140
  · rw [if_pos hle]
    exact hle
  · rw [if_neg hle]
    cases hidx : jsIndexOfFrom (jsTrim (collapseWs s)) '.' 60 with
    | some k =>
      dsimp only
      by_cases hcond : (decide ((0 : Int) < (k : Int)) &&
          decide ((k : Int) < 140)) = true
      · rw [if_pos hcond]
        rw [jsTake_length]
        have hk : (k : Int) < 140 := by
          simp only [Bool.and_eq_true, decide_eq_true_eq] at hcond
          exact hcond.2
        have hk2 : k < 140 := by exact_mod_cast hk
        have hsum : ((k : Int).toNat + 1) ≤ 140 := by
          rw [Int.toNat_natCast]
          omega
        exact le_trans (Nat.min_le_left _ _) hsum
      · rw [if_neg hcond]
        rw [String.length_append, jsTake_length]
        have h141 : 141 ≤ (jsTrim (collapseWs s)).length := by omega
        have hmin : min 139 (jsTrim (collapseWs s)).length = 139 := by omega
        rw [hmin]
        decide
    | none =>
      dsimp only
      rw [if_neg (by decide)]
      rw [String.length_append, jsTake_length]
      have h141 : 141 ≤ (jsTrim (collapseWs s)).length := by omega
      have hmin : min 139 (jsTrim (collapseWs s)).length = 139 := by omega
      rw [hmin]
      decide

theorem summarize_ne_empty (s : String)
    (h : ∃ c ∈ s.data, isJsWs c = false) : summarize s ≠ "" := by
  obtain ⟨c, hc, hcw⟩ := h
  have hmem : c ∈ (jsTrim (collapseWs s)).data := by
    rw [jsTrim_data]
    exact mem_dropEnds_of_not isJsWs c hcw _
      (mem_collapseWsChars_of_not_ws c hcw s.data hc)
  have htne : jsTrim (collapseWs s) ≠ "" :=
    string_ne_empty_of_data (List.ne_nil_of_mem hmem)
  have htpos : 0 < (jsTrim (collapseWs s)).length := by
    cases hd : (jsTrim (collapseWs s)).data with
    | nil => exact absurd (String.ext (by rw [hd])) htne
    | cons a as =>
      show 0 < (jsTrim (collapseWs s)).data.length
      rw [hd]
      simp
  simp only [summarize]
  by_cases hle : (jsTrim (collapseWs s)).length ≤ 140
  · rw [if_pos hle]
    exact htne
  · rw [if_neg hle]
    cases hidx : jsIndexOfFrom (jsTrim (collapseWs s)) '.' 60 with
    | some k =>
      dsimp only
      by_cases hcond : (decide ((0 : Int) < (k : Int)) &&
          decide ((k : Int) < 140)) = true
      · rw [if_pos hcond]
        apply ne_empty_of_length_pos
        rw [jsTake_length]
        have hp1 : 0 < (k : Int).toNat + 1 := Nat.succ_pos _
        omega
      · rw [if_neg hcond]
        apply ne_empty_of_length_pos
        rw [String.length_append]
        have hell : ("…" : String).length = 1 := rfl
        omega
    | none =>
      dsimp only
      rw [if_neg (by decide)]
      apply ne_empty_of_length_pos
      rw [String.length_append]
      have hell : ("…" : String).length = 1 := rfl
      omega

theorem snd_mem_of_mem_enum {α : Type} (l : List α) (p : Nat × α)
    (h : p ∈ l.enum) : p.2 ∈ l := by
  obtain ⟨i, x⟩ := p
  obtain ⟨hlt, hx⟩ := List.mem_enum h
  rw [hx]
  exact List.getElem_mem hlt

theorem mem_buildCandidates (page : Page) (s : Suggestion)
    (hs : s ∈ buildCandidates page) :
    ∃ frame ∈ page.frames, ∃ idx c,
      (idx, c) ∈ (findCommentRootsInTurboFrame frame).enum ∧
      ∃ i text, (i, text) ∈ (extractSuggestionsFromComment c).enum ∧
        s = mkSuggestion page.href frame idx c i text := by
  rw [buildCandidates, List.mem_flatMap] at hs
  obtain ⟨frame, hf, hs2⟩ := hs
  rw [List.mem_flatMap] at hs2
  obtain ⟨ic, hic, hs3⟩ := hs2
  rw [List.mem_map] at hs3
  obtain ⟨it, hit, hseq⟩ := hs3
  exact ⟨frame, hf, ic.1, ic.2, by simpa using hic, it.1, it.2,
    by simpa using hit, hseq.symm⟩

theorem segment_output_trimmed (c : CommentRoot) :
    ∀ x ∈ extractSuggestionsFromComment c, jsTrim x = x ∧ x ≠ "" := by
  intro x hx
  cases hb : c.body? with
  | none =>
    simp only [extractSuggestionsFromComment, hb] at hx
    cases hx
  | some b =>
    simp only [extractSuggestionsFromComment, hb] at hx
    rw [dedupe] at hx
    exact segment_concat_trimmed b x
      (mem_of_mem_dedupeKeyedAux jsLower _ [] x hx)

theorem exists_nonws_of_trimmed (x : String) (htr : jsTrim x = x)
    (hne : x ≠ "") : ∃ c ∈ x.data, isJsWs c = false := by
  have hd : x.data = dropEnds isJsWs x.data := trimmed_data_eq x htr
  have hdd : x.data ≠ [] := fun h => hne (String.ext (by rw [h]))
  obtain ⟨c, hc⟩ : ∃ c, x.data.head? = some c := by
    cases hh : x.data with
    | nil => exact absurd hh hdd
    | cons a as => exact ⟨a, rfl⟩
  refine ⟨c, List.mem_of_mem_head? hc, ?_⟩
  rw [hd] at hc
  exact dropEnds_head_not isJsWs x.data c hc

theorem extractReviewTextOnly_trimmed (c : CommentRoot) (r : String)
    (h : extractReviewTextOnly c = some r) : jsTrim r = r ∧ r ≠ "" := by
  cases hp : c.proseTextRaw with
  | none =>
    simp only [extractReviewTextOnly, hp] at h
    exact absurd h (by simp)
  | some raw =>
    simp only [extractReviewTextOnly, hp] at h
    by_cases he : jsTrim (jsReplaceAll (jsReplaceAll (jsReplaceAll (jsTrim raw)
        "Suggested change" "") "Suggestion applied" "")
        "Commit suggestion" "") = ""
    · rw [if_pos he] at h
      cases h
    · rw [if_neg he] at h
      cases h
      exact ⟨jsTrim_idem _, he⟩

/-- C10: every suggestion surfaced by the orchestrator has a summary of
at most 140 characters, the summary is obtained by `summarize` from the
review text or the suggestion text, and it is non-empty whenever the text
is non-empty. -/
theorem c10_summary_bounds (page : Page) (s : Suggestion)
    (hs : s ∈ extractAllSuggestions page) :
    s.summary.length ≤ 140 ∧ (s.text ≠ "" → s.summary ≠ "") ∧
    s.summary = summarize (jsOrText s.reviewText s.text) := by
  have hsb : s ∈ buildCandidates page := by
    rw [extractAllSuggestions, applyGlobalFilter] at hs
    by_cases hany : (buildCandidates page).any (fun s => s.isCopilot) = true
    · rw [if_pos hany] at hs
      exact List.mem_of_mem_filter hs
    · rw [if_neg hany] at hs
      exact hs
  obtain ⟨frame, hf, idx, c, hic, i, text, hit, hseq⟩ :=
    mem_buildCandidates page s hsb
  subst hseq
  have htext : text ∈ extractSuggestionsFromComment c :=
    snd_mem_of_mem_enum _ (i, text) hit
  have htprops := segment_output_trimmed c text htext
  refine ⟨summarize_length_le _, ?_, rfl⟩
  intro _
  show summarize (jsOrText (extractReviewTextOnly c) text) ≠ ""
  cases hrt : extractReviewTextOnly c with
  | none =>
    apply summarize_ne_empty
    show ∃ ch ∈ (jsOrText none text).data, isJsWs ch = false
    exact exists_nonws_of_trimmed text htprops.1 htprops.2
  | some r =>
    have hrprops := extractReviewTextOnly_trimmed c r hrt
    apply summarize_ne_empty
    show ∃ ch ∈ (jsOrText (some r) text).data, isJsWs ch = false
    simp only [jsOrText, if_neg hrprops.2]
    exact exists_nonws_of_trimmed r hrprops.1 hrprops.2

/-- Witness comment for C10. -/
def c10Comment : CommentRoot :=
  { hasTaskLists := false
    body? := some
      { liTexts := ["Avoid the double lookup"]
        fullText := "Avoid the double lookup"
        detailsBlocks := []
        suggTables := []
        preTexts := []
        codeTexts := [] }
    proseTextRaw := some "Avoid the double lookup"
    authorText := "Copilot"
    authorHref := ""
    botBadgeText := ""
    anchorHref := none }

/-- Witness frame for C10. -/
def c10Frame : Frame :=
  { idAttr := "review-thread-or-comment-id-101"
    outerHTML := ""
    specificFileLinkText := none
    dataPathAttr := none
    fileLinkText := none
    pathyText := none
    lineDivText := none
    dataLineNumbers := []
    blobNumTexts := []
    anchorHrefs := []
    codeTable := none
    comments := [c10Comment] }

/-- Witness page for C10 with one Copilot comment whose review prose is
the summarization input. -/
def c10Page : Page :=
  { href := "https://example.test/owner/repo/pull/10"
    frames := [c10Frame] }

/-- The record the C10 witness page produces. -/
def c10Record : Suggestion :=
  mkSuggestion "https://example.test/owner/repo/pull/10" c10Frame 0
    c10Comment 0 "Avoid the double lookup"

/-- Witness for C10 at a concrete extraction. -/
theorem c10_summary_bounds_witness :
    c10Record.summary.length ≤ 140 ∧ c10Record.summary ≠ "" :=
  ⟨(c10_summary_bounds c10Page c10Record (by decide)).1,
   (c10_summary_bounds c10Page c10Record (by decide)).2.1 (by decide)⟩

/-! ## C1: the shipped line-range regex against the plus format

The repository's CHANGELOG, RELEASE_NOTES_v1.1.md and FIX_SUMMARY all
document an updated pattern accepting `on lines +67 to +87`; the shipped
content.js (line 434) still carries the pre-v1.1 pattern, which matches
`Lines 42-45` only. -/

/-- Frame whose only line evidence is the plus-format heading. -/
def c1FramePlus : Frame :=
  { idAttr := "review-thread-or-comment-id-11"
    outerHTML := ""
    specificFileLinkText := none
    dataPathAttr := none
    fileLinkText := none
    pathyText := none
    lineDivText := some "Comment on lines +67 to +87"
    dataLineNumbers := []
    blobNumTexts := []
    anchorHrefs := []
    codeTable := none
    comments := [] }

/-- Frame whose only line evidence is the dash-format heading. -/
def c1FrameDash : Frame :=
  { idAttr := "review-thread-or-comment-id-12"
    outerHTML := ""
    specificFileLinkText := none
    dataPathAttr := none
    fileLinkText := none
    pathyText := none
    lineDivText := some "Lines 42-45"
    dataLineNumbers := []
    blobNumTexts := []
    anchorHrefs := []
    codeTable := none
    comments := [] }

/-- C1 evaluation: the shipped regex of `findLineRangeInFrame` matches
the `Lines 42-45` format but fails on `Comment on lines +67 to +87`, so
a container whose only line evidence is the plus-format heading yields a
null line range instead of the documented 67..87 — the code contradicts
its own v1.1 release documentation. -/
theorem c1_lineRange_plus_format_eval :
    searchLines (jsTrim "Lines 42-45").data = some (42, some 45) ∧
    searchLines (jsTrim "Comment on lines +67 to +87").data = none ∧
    findLineRangeInFrame c1FrameDash = (some 42, some 45) ∧
    findLineRangeInFrame c1FramePlus = (none, none) := by
  refine ⟨by decide, by decide, by decide, by decide⟩

/-! ## C2: the missing plain-text fallback

CHANGELOG, RELEASE_NOTES_v1.1.md and FIX_SUMMARY document a fallback in
`extractSuggestionsFromComment` pushing the whole comment text when no
structured suggestion was found and the text is longer than 10
characters; the shipped function (content.js lines 701-711) has no such
fallback and returns the empty list. -/

/-- A plain-paragraph Copilot comment: no list items, no pattern lines,
no change blocks, flattened text of 43 characters. -/
def c2Comment : CommentRoot :=
  { hasTaskLists := false
    body? := some
      { liTexts := []
        fullText := "This looks like a null pointer dereference."
        detailsBlocks := []
        suggTables := []
        preTexts := []
        codeTexts := [] }
    proseTextRaw := some "This looks like a null pointer dereference."
    authorText := "Copilot"
    authorHref := ""
    botBadgeText := ""
    anchorHref := none }

/-- The body of the C2 comment, for stating the strategy outputs. -/
def c2Body : CommentBody :=
  { liTexts := []
    fullText := "This looks like a null pointer dereference."
    detailsBlocks := []
    suggTables := []
    preTexts := []
    codeTexts := [] }

/-- C2 evaluation: all three structured strategies produce zero items and
the flattened text is longer than 10 characters, yet the shipped
`extractSuggestionsFromComment` returns the empty list where its own
documentation promises the one-element plain-text fallback. -/
theorem c2_plain_text_fallback_eval :
    extractListItems c2Body = [] ∧
    extractPatternLines c2Body = [] ∧
    extractSuggestedChangeBlocks c2Body = [] ∧
    (jsTrim c2Body.fullText).length > 10 ∧
    extractSuggestionsFromComment c2Comment = [] := by
  refine ⟨by decide, by decide, by decide, by decide, by decide⟩

end CRTP
